import Mathlib

/-!
Verification development for the StockSentimentApp news-sentiment pipeline
(`src/app.py`). The Python script is shallowly embedded below: the fetch
block (lines 29-56), the sentiment-analysis step (line 61), the summary
counts (lines 67-69), the display transforms (lines 88-101) and the
insights panel (lines 123-133) become pure Lean functions over explicit
inputs. Python floats are modelled by rationals; a run's fetch outcome is
modelled by an `Except` value (exception or list of provider items).
-/

namespace StockSentimentApp

/-- A raw provider item as returned by `yf.Ticker(ticker).news`: a dict from
which the script reads only `title` (`item.get('title', None)`); the other
text fields a provider may carry are kept so the spec's normalization can be
stated alongside. -/
structure NewsItemRaw where
  title : Option String
  description : Option String
  content : Option String
deriving Repr, DecidableEq

/-- The four placeholder headlines of `app.py` lines 42-47 and 51-56,
templated with the ticker symbol. -/
def placeholders (ticker : String) : List String :=
  [ticker ++ " stock surges after earnings report",
   ticker ++ " faces regulatory investigation",
   ticker ++ " market performance stable today",
   "No significant news for " ++ ticker]

/-- The title-extraction loop of lines 34-38: `title = item.get('title', None);
if title: headlines.append(title)`. Python truthiness keeps a title exactly
when it is present and a non-empty string. -/
def extractHeadlines (items : List NewsItemRaw) : List String :=
  items.filterMap (fun it =>
    match it.title with
    | none => none
    | some t => if t = "" then none else some t)

/-- The `try` body of lines 30-38: on a successful fetch the script takes the
top 20 news items (`ticker_obj.news[:20]`) and extracts their titles; an
exception anywhere in the body yields no headline list at all. -/
def fetchedHeadlines (r : Except String (List NewsItemRaw)) : Option (List String) :=
  match r with
  | .error _ => none
  | .ok items => some (extractHeadlines (items.take 20))

/-- The headline list the rest of the script works with (lines 29-56): the
`except` branch and the `if not headlines` branch both substitute the four
placeholders. -/
def headlinesOfRun (ticker : String) (r : Except String (List NewsItemRaw)) : List String :=
  match fetchedHeadlines r with
  | none => placeholders ticker
  | some hs => if hs = [] then placeholders ticker else hs

/-- Line 50: `st.warning(...)` runs only in the `except` branch; the
empty-headlines fallback of lines 41-47 shows nothing. -/
def warningShown (r : Except String (List NewsItemRaw)) : Bool :=
  match r with
  | .error _ => true
  | .ok _ => false

/-- Modelled from the spec: the Scorer invoked at line 61
(`TextBlob(h).sentiment.polarity`) is third-party library code not present
under `src/`; spec 4.1 describes it as a lexicon-based continuous polarity in
[-1, 1]. Here it is a finite word lexicon of polarities, each within [-1, 1]. -/
def sentimentLexicon : List (String × ℚ) :=
  [("surges", 1/2), ("good", 7/10), ("great", 4/5), ("bad", -7/10),
   ("stable", 1/10), ("falls", -2/5), ("investigation", -3/10), ("terrible", -1)]

/-- The polarity of a single word: its lexicon entry, or 0 when absent. -/
def lexPolarity (w : String) : ℚ :=
  (sentimentLexicon.lookup w).getD 0

/-- Modelled from the spec: `score(text) -> polarity`, the mean of the lexicon
polarities of the text's whitespace-separated words (spec 4.1, strategy (a)). -/
def score (text : String) : ℚ :=
  ((text.splitOn " ").map lexPolarity).sum / ((text.splitOn " ").map lexPolarity).length

/-- Line 61: `sentiments = [TextBlob(h).sentiment.polarity for h in headlines]`. -/
def sentimentsOf (headlines : List String) : List ℚ :=
  headlines.map score

/-- Line 67: `pos = sum(s > 0 for s in sentiments)`. -/
def posCount (sentiments : List ℚ) : Nat :=
  sentiments.countP (fun s => decide (0 < s))

/-- Line 68: `neg = sum(s < 0 for s in sentiments)`. -/
def negCount (sentiments : List ℚ) : Nat :=
  sentiments.countP (fun s => decide (s < 0))

/-- Line 69: `neu = sum(s == 0 for s in sentiments)`. -/
def neuCount (sentiments : List ℚ) : Nat :=
  sentiments.countP (fun s => decide (s = 0))

/-- Line 137: `len(df)`, the number of rows of the data frame built at line 62,
which equals the length of the sentiments column. -/
def totalCount (sentiments : List ℚ) : Nat :=
  sentiments.length

/-- Line 127: `avg_sentiment = df['Sentiment'].mean()`. -/
def avgSentiment (sentiments : List ℚ) : ℚ :=
  sentiments.sum / sentiments.length

/-- The three-way classification of lines 128-133. -/
inductive Sentiment where
  | Positive
  | Negative
  | Neutral
deriving Repr, DecidableEq

/-- Lines 128-133: `"Positive" if avg > 0.05, "Negative" if avg < -0.05,
else "Neutral"`. -/
def overallSentiment (sentiments : List ℚ) : Sentiment :=
  if avgSentiment sentiments > 1/20 then .Positive
  else if avgSentiment sentiments < -(1/20) then .Negative
  else .Neutral

/-- Line 88: `h if len(h) <= 50 else h[:47] + "..."`, per headline. A Python
slice of a string takes characters, modelled on the character list. -/
def shortLabel (h : String) : String :=
  if h.length ≤ 50 then h else (h.toList.take 47).asString ++ "..."

/-- Line 88: `short_labels = [... for h in df["Headline"]]`. -/
def shortLabels (headlines : List String) : List String :=
  headlines.map shortLabel

/-- Lines 90-99: the rows handed to `px.bar` pair the truncated label of each
headline with its sentiment, in the data frame's order (no sorting occurs). -/
def barChartRows (headlines : List String) (sentiments : List ℚ) : List (String × ℚ) :=
  (shortLabels headlines).zip sentiments

/-- The summary the insights panel derives (lines 127-138). -/
structure SentimentSummary where
  total : Nat
  positive : Nat
  negative : Nat
  neutral : Nat
  averagePolarity : ℚ
  overallLabel : Sentiment
deriving Repr, DecidableEq

/-- Lines 123-133: `if len(df) == 0` the script writes a no-data message and
derives no summary (modelled as `none`); otherwise it computes the average,
the overall label and displays the counts. -/
def insightsPanel (sentiments : List ℚ) : Option SentimentSummary :=
  if sentiments.length = 0 then none
  else some ⟨totalCount sentiments, posCount sentiments, negCount sentiments,
             neuCount sentiments, avgSentiment sentiments, overallSentiment sentiments⟩

/-- Removal of leading and trailing whitespace from a character list. -/
def trimChars (l : List Char) : List Char :=
  ((l.dropWhile Char.isWhitespace).reverse.dropWhile Char.isWhitespace).reverse

/-- Removal of leading and trailing whitespace from a string. -/
def trimStr (s : String) : String :=
  (trimChars s.toList).asString

/-- The normalization spec 4.2 describes, stated from the spec's words for
comparison with `extractHeadlines`: concatenate the available text fields with
a single-space separator, trim, and discard exactly when the result is
empty. -/
def specNormalize (it : NewsItemRaw) : Option String :=
  let text := trimStr (String.intercalate " " ([it.title, it.description, it.content].filterMap id))
  if text = "" then none else some text

/-- The ranking spec 4.4 describes, stated from the spec's words for comparison
with the order `barChartRows` actually uses: a stable sort of the sentiments in
descending order of polarity. -/
def specRankedSentiments (sentiments : List ℚ) : List ℚ :=
  sentiments.insertionSort (fun a b => b ≤ a)

/-! ### Helper lemmas -/

theorem placeholders_ne_nil (ticker : String) : placeholders ticker ≠ [] := by
  simp [placeholders]

theorem placeholders_length (ticker : String) : (placeholders ticker).length = 4 := rfl

theorem map_snd_barChartRows (headlines : List String) (sentiments : List ℚ)
    (h : headlines.length = sentiments.length) :
    (barChartRows headlines sentiments).map Prod.snd = sentiments := by
  unfold barChartRows
  apply List.map_snd_zip
  simp [shortLabels, h]

theorem headlinesOfRun_ne_nil (ticker : String) (r : Except String (List NewsItemRaw)) :
    headlinesOfRun ticker r ≠ [] := by
  unfold headlinesOfRun
  cases r with
  | error e => exact placeholders_ne_nil ticker
  | ok items =>
    simp only [fetchedHeadlines]
    split_ifs with h
    · exact placeholders_ne_nil ticker
    · exact h

/-! ### Claims -/

/-- C1: whenever the fetch raises or yields no usable headlines, the script
works with exactly the 4 ticker-templated placeholder headlines, which are
scored normally downstream, so the run's headline list is non-empty. -/
theorem fallback_guarantee (ticker : String) (r : Except String (List NewsItemRaw))
    (h : fetchedHeadlines r = none ∨ fetchedHeadlines r = some []) :
    headlinesOfRun ticker r = placeholders ticker ∧
    (headlinesOfRun ticker r).length = 4 ∧
    sentimentsOf (headlinesOfRun ticker r) = (placeholders ticker).map score ∧
    headlinesOfRun ticker r ≠ [] := by
  have hpl : headlinesOfRun ticker r = placeholders ticker := by
    rcases h with h | h <;> simp [headlinesOfRun, h]
  refine ⟨hpl, ?_, ?_, ?_⟩
  · rw [hpl]; exact placeholders_length ticker
  · rw [hpl]; rfl
  · rw [hpl]; exact placeholders_ne_nil ticker

/-- C1 witness: an erroring fetch for ticker AAPL. -/
theorem fallback_guarantee_witness :
    (fetchedHeadlines (Except.error "boom" : Except String (List NewsItemRaw)) = none ∨
     fetchedHeadlines (Except.error "boom" : Except String (List NewsItemRaw)) = some []) ∧
    (headlinesOfRun "AAPL" (Except.error "boom") = placeholders "AAPL" ∧
     (headlinesOfRun "AAPL" (Except.error "boom")).length = 4 ∧
     sentimentsOf (headlinesOfRun "AAPL" (Except.error "boom")) =
       (placeholders "AAPL").map score ∧
     headlinesOfRun "AAPL" (Except.error "boom") ≠ []) :=
  ⟨Or.inl rfl, fallback_guarantee "AAPL" (Except.error "boom") (Or.inl rfl)⟩

/-- C2: the overall classification is determined by the arithmetic mean of the
polarities against the dead-zone threshold 0.05: Positive iff the mean exceeds
0.05, Negative iff it is below -0.05, Neutral otherwise; in particular a mean
of exactly 0.05 is Neutral, 0.0501 Positive and -0.0501 Negative. -/
theorem overall_classification (sentiments : List ℚ) :
    (overallSentiment sentiments = .Positive ↔ avgSentiment sentiments > 1/20) ∧
    (overallSentiment sentiments = .Negative ↔ avgSentiment sentiments < -(1/20)) ∧
    (overallSentiment sentiments = .Neutral ↔
      -(1/20) ≤ avgSentiment sentiments ∧ avgSentiment sentiments ≤ 1/20) ∧
    overallSentiment [1/20] = .Neutral ∧
    overallSentiment [501/10000] = .Positive ∧
    overallSentiment [-(501/10000)] = .Negative := by
  refine ⟨?_, ?_, ?_, ?_, ?_, ?_⟩
  · unfold overallSentiment
    split_ifs with h1 h2 <;> simp_all
  · unfold overallSentiment
    split_ifs with h1 h2 <;> simp_all
    linarith
  · unfold overallSentiment
    split_ifs with h1 h2 <;> simp_all
  · norm_num [overallSentiment, avgSentiment]
  · norm_num [overallSentiment, avgSentiment]
  · norm_num [overallSentiment, avgSentiment]

/-- C3: the row count of the data frame is the number of scored items and is
partitioned exactly by the positive (polarity > 0), negative (polarity < 0)
and neutral (polarity == 0) counts. -/
theorem counts_partition (sentiments : List ℚ) :
    totalCount sentiments = sentiments.length ∧
    totalCount sentiments = posCount sentiments + negCount sentiments + neuCount sentiments := by
  refine ⟨rfl, ?_⟩
  unfold totalCount posCount negCount neuCount
  induction sentiments with
  | nil => rfl
  | cons s t ih =>
    simp only [List.countP_cons, List.length_cons]
    rcases lt_trichotomy s 0 with h | h | h
    · have h1 : decide (0 < s) = false := by simp [not_lt.mpr h.le]
      have h2 : decide (s < 0) = true := by simp [h]
      have h3 : decide (s = 0) = false := by simp [h.ne]
      rw [h1, h2, h3]
      simp only [if_true, if_false, Bool.false_eq_true]
      omega
    · subst h
      have h1 : decide ((0:ℚ) < 0) = false := by simp
      have h2 : decide ((0:ℚ) = 0) = true := by simp
      rw [h1, h2]
      simp only [if_true, if_false, Bool.false_eq_true]
      omega
    · have h1 : decide (0 < s) = true := by simp [h]
      have h2 : decide (s < 0) = false := by simp [not_lt.mpr h.le]
      have h3 : decide (s = 0) = false := by simp [h.ne.symm]
      rw [h1, h2, h3]
      simp only [if_true, if_false, Bool.false_eq_true]
      omega

/-- C4 counterexample: a fetch that succeeds but yields no usable headlines
takes the fallback path, yet the script shows no warning and carries no
degraded flag — the claim that every fallback run surfaces `degraded = true`
is false on this input. -/
theorem degraded_flag_counterexample :
    headlinesOfRun "AAPL" (Except.ok ([] : List NewsItemRaw)) = placeholders "AAPL" ∧
    warningShown (Except.ok ([] : List NewsItemRaw)) = false :=
  ⟨rfl, rfl⟩

/-- C4 amended: the degraded-mode warning is surfaced exactly when the fetch
raises; an empty-but-successful fetch falls back silently. In either case the
fallback is non-fatal: the run always proceeds with a non-empty headline
list. -/
theorem warning_iff_exception (ticker : String) (r : Except String (List NewsItemRaw)) :
    (warningShown r = true ↔ ∃ e, r = Except.error e) ∧
    headlinesOfRun ticker r ≠ [] := by
  constructor
  · cases r with
    | error e => simp [warningShown]
    | ok items => simp [warningShown]
  · exact headlinesOfRun_ne_nil ticker r

/-- C5 counterexample: for polarities [0.5, -0.3, 0.9, -0.9] the bar chart
receives the items in original fetch order, not in the descending order
[0.9, 0.5, -0.3, -0.9] the claim asserts — no sort is performed. -/
theorem ranking_counterexample :
    (barChartRows ["h1", "h2", "h3", "h4"] [1/2, -3/10, 9/10, -9/10]).map Prod.snd
      = [1/2, -3/10, 9/10, -9/10] ∧
    specRankedSentiments [1/2, -3/10, 9/10, -9/10] = [9/10, 1/2, -3/10, -9/10] ∧
    ([1/2, -3/10, 9/10, -9/10] : List ℚ) ≠ [9/10, 1/2, -3/10, -9/10] := by
  refine ⟨map_snd_barChartRows _ _ rfl, ?_, ?_⟩
  · norm_num [specRankedSentiments, List.insertionSort, List.orderedInsert]
  · norm_num

/-- C5 amended: the chart presents the scored items in the original fetch
order — the polarity column handed to the bar chart equals the sentiments
list unchanged; no descending sort by polarity occurs. -/
theorem bar_chart_preserves_fetch_order (headlines : List String) (sentiments : List ℚ)
    (h : headlines.length = sentiments.length) :
    (barChartRows headlines sentiments).map Prod.snd = sentiments :=
  map_snd_barChartRows headlines sentiments h

/-- C5 amended witness: two headlines with their polarities. -/
theorem bar_chart_preserves_fetch_order_witness :
    (["a", "bb"] : List String).length = ([1/2, -3/10] : List ℚ).length ∧
    (barChartRows ["a", "bb"] [1/2, -3/10]).map Prod.snd = [1/2, -3/10] :=
  ⟨rfl, bar_chart_preserves_fetch_order ["a", "bb"] [1/2, -3/10] rfl⟩

/-- C6 counterexample: an item whose title is absent but whose description is
non-empty is discarded by the code, while the claimed normalization (fields
concatenated with a space and trimmed) would keep it — the adapter reads only
the title field. -/
theorem adapter_normalization_counterexample :
    extractHeadlines [⟨none, some "Company beats estimates", none⟩] = [] ∧
    specNormalize ⟨none, some "Company beats estimates", none⟩
      = some "Company beats estimates" :=
  ⟨rfl, by decide⟩

/-- C6 amended: the adapter keeps exactly those items that carry a present,
non-empty `title`, and the kept text is the title verbatim — no concatenation
of description or content and no trimming. -/
theorem adapter_title_only (items : List NewsItemRaw) (s : String) :
    s ∈ extractHeadlines items ↔ s ≠ "" ∧ ∃ it ∈ items, it.title = some s := by
  unfold extractHeadlines
  rw [List.mem_filterMap]
  constructor
  · rintro ⟨it, hmem, hf⟩
    cases hti : it.title with
    | none => rw [hti] at hf; cases hf
    | some t =>
      rw [hti] at hf
      by_cases ht : t = ""
      · simp [ht] at hf
      · simp only [if_neg ht, Option.some.injEq] at hf
        subst hf
        exact ⟨ht, it, hmem, hti⟩
  · rintro ⟨hne, it, hmem, hti⟩
    exact ⟨it, hmem, by simp [hti, hne]⟩

/-- Association-list lookup stays within any bound satisfied by every entry
and by the default 0. -/
theorem lookup_getD_bounded (l : List (String × ℚ)) (w : String)
    (h : ∀ p ∈ l, -1 ≤ p.2 ∧ p.2 ≤ 1) :
    -1 ≤ (l.lookup w).getD 0 ∧ (l.lookup w).getD 0 ≤ 1 := by
  induction l with
  | nil => simp
  | cons p t ih =>
    obtain ⟨k, v⟩ := p
    rw [List.lookup]
    cases hkw : w == k with
    | true =>
      simp only [Option.getD_some]
      exact h ⟨k, v⟩ (List.mem_cons_self _ _)
    | false =>
      exact ih (fun q hq => h q (List.mem_cons_of_mem _ hq))

/-- Every word polarity of the lexicon lies in [-1, 1]. -/
theorem lexPolarity_bounded (w : String) : -1 ≤ lexPolarity w ∧ lexPolarity w ≤ 1 := by
  apply lookup_getD_bounded
  intro p hp
  fin_cases hp <;> norm_num

/-- A list whose entries all lie in [-1, 1] has its sum between minus and
plus its length. -/
theorem sum_bounded (l : List ℚ) (h : ∀ x ∈ l, -1 ≤ x ∧ x ≤ 1) :
    -(l.length : ℚ) ≤ l.sum ∧ l.sum ≤ (l.length : ℚ) := by
  induction l with
  | nil => simp
  | cons x t ih =>
    have hx := h x (List.mem_cons_self x t)
    have ht := ih (fun y hy => h y (List.mem_cons_of_mem x hy))
    simp only [List.sum_cons, List.length_cons]
    push_cast
    constructor <;> linarith [hx.1, hx.2, ht.1, ht.2]

/-- C7: every polarity the Scorer produces lies in the closed interval
[-1, 1]. -/
theorem score_in_range (text : String) : -1 ≤ score text ∧ score text ≤ 1 := by
  unfold score
  have hb : ∀ x ∈ (text.splitOn " ").map lexPolarity, -1 ≤ x ∧ x ≤ 1 := by
    intro x hx
    obtain ⟨w, _, rfl⟩ := List.mem_map.mp hx
    exact lexPolarity_bounded w
  obtain ⟨h1, h2⟩ := sum_bounded ((text.splitOn " ").map lexPolarity) hb
  rcases Nat.eq_zero_or_pos ((text.splitOn " ").map lexPolarity).length with h0 | hpos
  · rw [List.length_eq_zero] at h0
    rw [h0]
    norm_num
  · have hp : (0:ℚ) < ((text.splitOn " ").map lexPolarity).length := by exact_mod_cast hpos
    constructor
    · rw [le_div_iff₀ hp]
      linarith
    · rw [div_le_one hp]
      exact h2

/-- Each truncated display label fits in 50 characters. -/
theorem shortLabel_length_le (h : String) : (shortLabel h).length ≤ 50 := by
  unfold shortLabel
  split_ifs with hle
  · exact hle
  · rw [String.length_append]
    have h1 : ((h.toList.take 47).asString).length = (h.toList.take 47).length := rfl
    have h2 : ("..." : String).length = 3 := rfl
    rw [h1, h2, List.length_take]
    omega

/-- C8: headline truncation caps every display label at 50 characters,
appending an ellipsis to headlines longer than 50 characters, and is a pure
display transform: it maps the headline list one-to-one and the polarity
column handed to the chart is the sentiments list unchanged, in unchanged
order. -/
theorem truncation_pure (headlines : List String) (sentiments : List ℚ)
    (h : headlines.length = sentiments.length) :
    (shortLabels headlines).length = headlines.length ∧
    (∀ l ∈ shortLabels headlines, l.length ≤ 50) ∧
    (barChartRows headlines sentiments).map Prod.snd = sentiments := by
  refine ⟨List.length_map _ _, ?_, map_snd_barChartRows headlines sentiments h⟩
  intro l hl
  obtain ⟨hd, _, rfl⟩ := List.mem_map.mp hl
  exact shortLabel_length_le hd

/-- C8 witness: one short and one 60-character headline with two
polarities. -/
theorem truncation_pure_witness :
    (["ok news", "aaaaaaaaaaaaaaaaaaaaaaaaaaaaaaaaaaaaaaaaaaaaaaaaaaaaaaaaaaaa"] :
      List String).length = ([1/10, -1/5] : List ℚ).length ∧
    ((shortLabels ["ok news", "aaaaaaaaaaaaaaaaaaaaaaaaaaaaaaaaaaaaaaaaaaaaaaaaaaaaaaaaaaaa"]).length
        = (["ok news", "aaaaaaaaaaaaaaaaaaaaaaaaaaaaaaaaaaaaaaaaaaaaaaaaaaaaaaaaaaaa"] :
            List String).length ∧
      (∀ l ∈ shortLabels ["ok news", "aaaaaaaaaaaaaaaaaaaaaaaaaaaaaaaaaaaaaaaaaaaaaaaaaaaaaaaaaaaa"],
        l.length ≤ 50) ∧
      (barChartRows ["ok news", "aaaaaaaaaaaaaaaaaaaaaaaaaaaaaaaaaaaaaaaaaaaaaaaaaaaaaaaaaaaa"]
          [1/10, -1/5]).map Prod.snd = [1/10, -1/5]) :=
  ⟨rfl, truncation_pure _ _ rfl⟩

/-- C9 counterexample: on an empty data frame the insights panel writes a
no-data message and produces no summary at all, rather than the all-zero
Neutral summary the claim asserts. -/
theorem empty_aggregate_counterexample :
    insightsPanel [] = none ∧
    insightsPanel [] ≠ some ⟨0, 0, 0, 0, 0, Sentiment.Neutral⟩ := by
  constructor
  · rfl
  · simp [insightsPanel]

/-- C9 amended: on an empty item sequence the insights panel computes no
summary (neither average polarity nor overall label is derived; modelled as
`none`); the counts, computed unconditionally, are all 0; as a total function
it never raises. -/
theorem empty_input_guarded :
    insightsPanel [] = none ∧
    posCount [] = 0 ∧ negCount [] = 0 ∧ neuCount [] = 0 ∧ totalCount [] = 0 :=
  ⟨rfl, rfl, rfl, rfl, rfl⟩

/-- C10: on every run the headline list is non-empty — between 1 and 20
extracted titles, or the 4 placeholders — so the empty-data branch guarding
the insights panel can never fire and the mean polarity is computed over a
non-empty column. -/
theorem pipeline_nonempty (ticker : String) (r : Except String (List NewsItemRaw)) :
    1 ≤ (headlinesOfRun ticker r).length ∧
    (headlinesOfRun ticker r).length ≤ 20 ∧
    (headlinesOfRun ticker r = placeholders ticker ∨
      ∃ items, r = Except.ok items ∧
        headlinesOfRun ticker r = extractHeadlines (items.take 20)) ∧
    insightsPanel (sentimentsOf (headlinesOfRun ticker r)) ≠ none := by
  have hne := headlinesOfRun_ne_nil ticker r
  have hpos : 1 ≤ (headlinesOfRun ticker r).length := by
    have := List.length_pos.mpr hne
    omega
  refine ⟨hpos, ?_, ?_, ?_⟩
  · cases r with
    | error e =>
      simp [headlinesOfRun, fetchedHeadlines, placeholders]
    | ok items =>
      simp only [headlinesOfRun, fetchedHeadlines]
      split_ifs with h
      · simp [placeholders]
      · calc (extractHeadlines (items.take 20)).length
            ≤ (items.take 20).length := List.length_filterMap_le _ _
          _ ≤ 20 := List.length_take_le _ _
  · cases r with
    | error e => exact Or.inl rfl
    | ok items =>
      simp only [headlinesOfRun, fetchedHeadlines]
      split_ifs with h
      · exact Or.inl rfl
      · exact Or.inr ⟨items, rfl, rfl⟩
  · have hlen : (sentimentsOf (headlinesOfRun ticker r)).length
        = (headlinesOfRun ticker r).length := List.length_map _ _
    simp only [insightsPanel, hlen]
    split_ifs with h
    · omega
    · simp

end StockSentimentApp
